import Mathlib

/-!
Verification of the haier-decoder protocol analysis scripts.

The definitions below are a shallow embedding of the Python sources:

* `wifi_module_simulator.py` — the frame codec (`calculate_checksum`,
  `calculate_crc16`, `escape_data`, `build_frame`);
* `state_machine_analysis.py` — the phase classifier (`determine_state`);
* `duplicate_challenge_analyzer.py` — rolling-code extraction and
  duplicate-challenge detection;
* `extract_auth_sequences.py` — challenge/response pairing over a capture;
* `analyze_rolling.py` — power-cycle boundary grouping.

Python byte lists become `List Nat` with explicit `&&& 0xFF` masking where
the code masks; Python strings become `String` with all primitive string
operations re-implemented structurally on `List Char` so that every
definition evaluates by kernel reduction.
-/

namespace Haier

/-! ## Frame codec (`wifi_module_simulator.py`) -/

/-- Source `self.module_address` in `WiFiModuleSimulator.__init__`. -/
def module_address : Nat := 0x00

/-- Source `self.device_address` in `WiFiModuleSimulator.__init__`. -/
def device_address : Nat := 0x40

/-- Source `generate_frame_header`: the fixed `FF FF` header. -/
def generate_frame_header : List Nat := [0xFF, 0xFF]

/-- Source `calculate_frame_length`: length of the data plus one checksum byte. -/
def calculate_frame_length (data : List Nat) : Nat := data.length + 1

/-- Source `generate_address_identifier`: source, destination, five zero bytes. -/
def generate_address_identifier (source destination : Nat) : List Nat :=
  [source, destination, 0x00, 0x00, 0x00, 0x00, 0x00]

/-- Source `calculate_checksum`: accumulative sum seeded with the frame length,
low byte returned. -/
def calculate_checksum (frame_length : Nat) (data : List Nat) : Nat :=
  (data.foldl (· + ·) frame_length) &&& 0xFF

/-- One LSB-first CRC16 iteration with polynomial `0xA001`. -/
def crc16Round (crc : Nat) : Nat :=
  if crc &&& 0x0001 = 1 then (crc >>> 1) ^^^ 0xA001 else crc >>> 1

/-- Source `calculate_crc16`: initial register `0xFFFF`; per byte, XOR the byte in
and run eight `crc16Round` iterations. -/
def calculate_crc16 (data : List Nat) : Nat :=
  data.foldl (fun crc byte => crc16Round^[8] (crc ^^^ byte)) 0xFFFF

/-- Source `escape_data`: append each byte, inserting `0x55` after every `0xFF`. -/
def escape_data : List Nat → List Nat
  | [] => []
  | byte :: rest =>
    if byte = 0xFF then byte :: 0x55 :: escape_data rest
    else byte :: escape_data rest

/-- The length byte `build_frame` computes for a given type and payload. -/
def frame_len (frame_type : Nat) (data : List Nat) : Nat :=
  calculate_frame_length
    (generate_address_identifier module_address device_address ++
      (frame_type :: data))

/-- The frame bytes from the length byte through the payload, i.e.
`frame[2:]` at the point where `build_frame` computes the checksum
(`checksum_data` in the source). -/
def frame_body (frame_type : Nat) (data : List Nat) : List Nat :=
  frame_len frame_type data ::
    generate_address_identifier module_address device_address ++
      (frame_type :: data)

/-- Source `build_frame`: header, length, address identifier, type, payload,
checksum, optional CRC16 (low byte then high byte), then byte-stuffing. -/
def build_frame (frame_type : Nat) (data : List Nat) (use_crc : Bool) :
    List Nat :=
  let header := generate_frame_header
  let address_id := generate_address_identifier module_address device_address
  let frame_data := frame_type :: data
  let frame_length := calculate_frame_length (address_id ++ frame_data)
  let frame0 := header ++ frame_length :: (address_id ++ frame_data)
  let checksum_data := frame0.drop 2
  let checksum := calculate_checksum frame_length checksum_data
  let frame1 := frame0 ++ [checksum]
  let frame2 :=
    if use_crc then
      let crc := calculate_crc16 checksum_data
      frame1 ++ [crc &&& 0xFF, (crc >>> 8) &&& 0xFF]
    else frame1
  escape_data frame2

/-- The checksum byte `build_frame` actually appends. -/
def appended_checksum (frame_type : Nat) (data : List Nat) : Nat :=
  calculate_checksum (frame_len frame_type data) (frame_body frame_type data)

/-- The CRC16 value `build_frame` computes when `use_crc` is set. -/
def appended_crc (frame_type : Nat) (data : List Nat) : Nat :=
  calculate_crc16 (frame_body frame_type data)

/-- The checksum formula as the specification states it: low byte of
(length + sum of the bytes of address_identifier, type and payload), the
length byte contributing exactly once. -/
def spec_checksum (frame_type : Nat) (data : List Nat) : Nat :=
  (frame_len frame_type data +
    ((generate_address_identifier module_address device_address).sum +
      (frame_type + data.sum))) &&& 0xFF

/-- The checksum formula the code actually implements: low byte of
(2·length + sum of the bytes of address_identifier, type and payload) —
the length byte is both the accumulator seed and the first summed byte. -/
def double_length_checksum (frame_type : Nat) (data : List Nat) : Nat :=
  (2 * frame_len frame_type data +
    ((generate_address_identifier module_address device_address).sum +
      (frame_type + data.sum))) % 256

/-- The complete frame before the final byte-stuffing pass. -/
def unescaped_frame (frame_type : Nat) (data : List Nat) (use_crc : Bool) :
    List Nat :=
  0xFF :: 0xFF :: frame_body frame_type data ++
    appended_checksum frame_type data ::
      (if use_crc then
        [appended_crc frame_type data &&& 0xFF,
         (appended_crc frame_type data >>> 8) &&& 0xFF]
      else [])

lemma build_frame_eq (frame_type : Nat) (data : List Nat) (use_crc : Bool) :
    build_frame frame_type data use_crc =
      escape_data (unescaped_frame frame_type data use_crc) := by
  cases use_crc <;>
    simp [build_frame, unescaped_frame, frame_body, frame_len,
      generate_frame_header, appended_checksum, appended_crc,
      List.append_assoc]

lemma foldl_add_eq (l : List Nat) (a : Nat) : l.foldl (· + ·) a = a + l.sum := by
  induction l generalizing a with
  | nil => simp
  | cons b rest ih => simp [List.foldl_cons, ih, List.sum_cons]; omega

lemma and_255_eq_mod (n : Nat) : n &&& 255 = n % 256 := by
  have h := Nat.and_pow_two_sub_one_eq_mod n 8
  norm_num at h
  exact h

lemma appended_checksum_eq (frame_type : Nat) (data : List Nat) :
    appended_checksum frame_type data =
      double_length_checksum frame_type data := by
  simp only [appended_checksum, double_length_checksum, calculate_checksum,
    frame_body, foldl_add_eq, List.sum_cons, List.sum_append, and_255_eq_mod]
  congr 1
  omega

lemma escape_eq_flatMap (l : List Nat) :
    escape_data l =
      l.flatMap (fun b => if b = 0xFF then [b, 0x55] else [b]) := by
  induction l with
  | nil => simp [escape_data]
  | cons b rest ih =>
    by_cases hb : b = 0xFF <;> simp [escape_data, hb, ih]

lemma escape_length (l : List Nat) :
    (escape_data l).length = l.length + l.count 0xFF := by
  induction l with
  | nil => simp [escape_data]
  | cons b rest ih =>
    by_cases hb : b = 0xFF
    · subst hb
      simp [escape_data, ih, List.count_cons]
      omega
    · simp [escape_data, hb, ih, List.count_cons, Ne.symm hb]
      omega

lemma escape_cons_ff (rest : List Nat) :
    escape_data (0xFF :: rest) = 0xFF :: 0x55 :: escape_data rest := by
  simp [escape_data]

lemma escape_cons_ne {b : Nat} (rest : List Nat) (hb : b ≠ 0xFF) :
    escape_data (b :: rest) = b :: escape_data rest := by
  simp [escape_data, hb]

lemma escape_ff_next (l : List Nat) :
    ∀ i, (escape_data l)[i]? = some 0xFF →
      (escape_data l)[i + 1]? = some 0x55 := by
  induction l with
  | nil => intro i h; simp [escape_data] at h
  | cons b rest ih =>
    intro i h
    by_cases hb : b = 0xFF
    · subst hb
      rw [escape_cons_ff] at h ⊢
      match i with
      | 0 => simp
      | 1 => simp at h
      | (i + 2) =>
        simp only [List.getElem?_cons_succ] at h ⊢
        exact ih i h
    · rw [escape_cons_ne rest hb] at h ⊢
      match i with
      | 0 =>
        simp only [List.getElem?_cons_zero, Option.some.injEq] at h
        exact absurd h hb
      | (i + 1) =>
        simp only [List.getElem?_cons_succ] at h ⊢
        exact ih i h

/-- C1 (counterexample): for frame type `0x00` with empty payload the
checksum byte `build_frame` appends is `82`, while the low byte of
(length + sum of address_identifier, type and payload) — the length byte
counted exactly once — is `73`. -/
theorem checksum_single_length_counterexample :
    build_frame 0 [] false =
      [0xFF, 0x55, 0xFF, 0x55, 9, 0, 0x40, 0, 0, 0, 0, 0, 0, 82] ∧
    spec_checksum 0 [] = 73 ∧ (82 : Nat) ≠ 73 := by
  refine ⟨by decide, by decide, by decide⟩

/-- C1 (amended): for every frame type, payload and CRC flag, the checksum
byte `build_frame` appends equals the low byte of (2·length + sum of all
bytes of address_identifier, type and payload): the length byte is both the
accumulator seed of `calculate_checksum` and the first byte of the summed
span, so it contributes to the checksum exactly twice. -/
theorem checksum_double_length (frame_type : Nat) (data : List Nat)
    (use_crc : Bool) :
    build_frame frame_type data use_crc =
      escape_data (0xFF :: 0xFF :: frame_body frame_type data ++
        double_length_checksum frame_type data ::
          (if use_crc then
            [appended_crc frame_type data &&& 0xFF,
             (appended_crc frame_type data >>> 8) &&& 0xFF]
          else [])) := by
  rw [build_frame_eq, unescaped_frame, appended_checksum_eq]

/-- C8: `escape_data` returns the input bytes in order with exactly one
`0x55` inserted immediately after every `0xFF` byte; hence the output
length is the input length plus the number of `0xFF` bytes, every `0xFF`
in the output is immediately followed by `0x55`, and `build_frame` applies
this stuffing as its final step. -/
theorem escape_data_stuffing :
    (∀ l : List Nat,
      escape_data l =
        l.flatMap (fun b => if b = 0xFF then [b, 0x55] else [b])) ∧
    (∀ l : List Nat, (escape_data l).length = l.length + l.count 0xFF) ∧
    (∀ (l : List Nat) (i : Nat), (escape_data l)[i]? = some 0xFF →
      (escape_data l)[i + 1]? = some 0x55) ∧
    (∀ (frame_type : Nat) (data : List Nat) (use_crc : Bool),
      build_frame frame_type data use_crc =
        escape_data (unescaped_frame frame_type data use_crc)) :=
  ⟨escape_eq_flatMap, escape_length, escape_ff_next, build_frame_eq⟩

/-- C8 (witness): concrete instance of `escape_data_stuffing` at payload
`[0x01, 0xFF, 0x02]`. -/
theorem escape_data_stuffing_witness :
    (escape_data [0x01, 0xFF, 0x02])[2]? = some 0x55 :=
  escape_data_stuffing.2.2.1 [0x01, 0xFF, 0x02] 1 (by decide)

/-- C9: `calculate_crc16` starts from register `0xFFFF`, XORs each byte in
and runs eight LSB-first `0xA001` rounds per byte; with `use_crc` set,
`build_frame` appends this CRC computed over
length ++ address_identifier ++ type ++ payload (`frame_body`, the same
span the checksum is computed over, excluding the checksum byte itself) as
low byte then high byte; without `use_crc` no CRC bytes are appended. -/
theorem crc16_appended_over_checksum_span :
    (∀ data : List Nat,
      calculate_crc16 data =
        data.foldl (fun crc byte => crc16Round^[8] (crc ^^^ byte)) 0xFFFF) ∧
    (∀ (frame_type : Nat) (data : List Nat),
      appended_checksum frame_type data =
        calculate_checksum (frame_len frame_type data)
          (frame_body frame_type data)) ∧
    (∀ (frame_type : Nat) (data : List Nat),
      build_frame frame_type data true =
        escape_data (0xFF :: 0xFF :: frame_body frame_type data ++
          [appended_checksum frame_type data,
           calculate_crc16 (frame_body frame_type data) &&& 0xFF,
           (calculate_crc16 (frame_body frame_type data) >>> 8) &&& 0xFF])) ∧
    (∀ (frame_type : Nat) (data : List Nat),
      build_frame frame_type data false =
        escape_data (0xFF :: 0xFF :: frame_body frame_type data ++
          [appended_checksum frame_type data])) := by
  refine ⟨fun _ => rfl, fun _ _ => rfl, fun ft d => ?_, fun ft d => ?_⟩
  · rw [build_frame_eq]; rfl
  · rw [build_frame_eq]; rfl

/-- C10: byte-stuffing covers the entire frame, header, checksum and CRC
bytes included: every `build_frame` output begins `FF 55 FF 55`, every
`0xFF` anywhere in the output is immediately followed by an inserted
`0x55`, and the output is exactly `escape_data` applied to the full
unescaped frame. -/
theorem stuffing_covers_entire_frame (frame_type : Nat) (data : List Nat)
    (use_crc : Bool) :
    (build_frame frame_type data use_crc).take 4 =
      [0xFF, 0x55, 0xFF, 0x55] ∧
    (∀ i : Nat, (build_frame frame_type data use_crc)[i]? = some 0xFF →
      (build_frame frame_type data use_crc)[i + 1]? = some 0x55) ∧
    build_frame frame_type data use_crc =
      escape_data (unescaped_frame frame_type data use_crc) := by
  refine ⟨?_, ?_, build_frame_eq frame_type data use_crc⟩
  · rw [build_frame_eq, unescaped_frame]
    simp only [List.cons_append, escape_cons_ff, List.take_succ_cons,
      List.take_zero]
  · intro i h
    rw [build_frame_eq] at h ⊢
    exact escape_ff_next _ i h

/-- C10 (witness): concrete instance of `stuffing_covers_entire_frame` for
frame type `0x61`, payload `[0x00]`, no CRC. -/
theorem stuffing_covers_entire_frame_witness :
    (build_frame 0x61 [0x00] false)[1]? = some 0x55 :=
  (stuffing_covers_entire_frame 0x61 [0x00] false).2.1 0 (by decide)

/-! ## Decoder, modelled from the spec

The repository has no frame decoder under `src/` (only the encoder
`build_frame` exists); the definitions below are modelled from the
specification, §4.1. -/

/-- Modelled from the spec: the `FrameError` taxonomy of §4.1/§7
(HeaderMismatch, LengthMismatch, ChecksumMismatch, TruncatedFrame,
InvalidEscape). -/
inductive FrameError where
  | HeaderMismatch
  | LengthMismatch
  | ChecksumMismatch
  | TruncatedFrame
  | InvalidEscape
deriving DecidableEq, Repr

/-- A logical frame: type, payload and CRC flag. -/
structure Frame where
  ftype : Nat
  payload : List Nat
  use_crc : Bool
deriving DecidableEq, Repr

/-- Modelled from the spec: stuffing removal — "decoding removes exactly
one 0x55 immediately following every 0xFF it encounters", failing with
`InvalidEscape` "when a literal 0xFF is not followed by the expected
stuffing byte". -/
def unstuff : List Nat → Except FrameError (List Nat)
  | [] => .ok []
  | b :: rest =>
    if b = 0xFF then
      match rest with
      | 0x55 :: rest2 => (unstuff rest2).map (fun l => 0xFF :: l)
      | _ => .error .InvalidEscape
    else (unstuff rest).map (fun l => b :: l)

/-- Modelled from the spec: parsing of an unstuffed frame after the
two-byte header — reads `length`, verifies enough bytes remain
(`TruncatedFrame`), recomputes the checksum over the corresponding span
(the length byte through the payload) and compares (`ChecksumMismatch`),
recomputes and compares the CRC16 when one is expected, and extracts the
type and payload. -/
def parseBody (u : List Nat) (expect_crc : Bool) : Except FrameError Frame :=
  let L := u.getD 0 0
  if 1 + L + (if expect_crc then 2 else 0) ≤ u.length then
    if u.getD L 0 = calculate_checksum L (u.take L) then
      if expect_crc then
        let crc := calculate_crc16 (u.take L)
        if u.getD (L + 1) 0 = (crc &&& 0xFF) ∧
            u.getD (L + 2) 0 = ((crc >>> 8) &&& 0xFF) then
          .ok ⟨u.getD 8 0, (u.drop 9).take (L - 9), true⟩
        else .error .ChecksumMismatch
      else .ok ⟨u.getD 8 0, (u.drop 9).take (L - 9), false⟩
    else .error .ChecksumMismatch
  else .error .TruncatedFrame

/-- Modelled from the spec, in the spec's stated order: "verifies the
leading 2 bytes equal the header; removes stuffing; reads `length`;
verifies enough bytes remain; recomputes checksum over the corresponding
span and compares". -/
def decode (bs : List Nat) (expect_crc : Bool) : Except FrameError Frame :=
  if bs.take 2 = [0xFF, 0xFF] then
    match unstuff (bs.drop 2) with
    | .error e => .error e
    | .ok u => parseBody u expect_crc
  else .error .HeaderMismatch

/-- The alternative stuffing policy: remove the stuffing first, then
verify the header on the unstuffed bytes (header-inclusive stuffing). -/
def decode_header_stuffed (bs : List Nat) (expect_crc : Bool) :
    Except FrameError Frame :=
  match unstuff bs with
  | .error e => .error e
  | .ok u =>
    if u.take 2 = [0xFF, 0xFF] then parseBody (u.drop 2) expect_crc
    else .error .HeaderMismatch

lemma unstuff_cons_ff (rest : List Nat) :
    unstuff (0xFF :: 0x55 :: rest) = (unstuff rest).map (fun l => 0xFF :: l) := by
  conv_lhs => rw [unstuff.eq_def]
  norm_num

lemma unstuff_cons_ne {b : Nat} (rest : List Nat) (hb : b ≠ 0xFF) :
    unstuff (b :: rest) = (unstuff rest).map (fun l => b :: l) := by
  conv_lhs => rw [unstuff.eq_def]
  simp [hb]

lemma unstuff_escape (l : List Nat) : unstuff (escape_data l) = .ok l := by
  induction l with
  | nil => rfl
  | cons b rest ih =>
    by_cases hb : b = 0xFF
    · subst hb
      rw [escape_cons_ff, unstuff_cons_ff, ih]
      rfl
    · rw [escape_cons_ne _ hb, unstuff_cons_ne _ hb, ih]
      rfl

lemma frame_body_length (ft : Nat) (d : List Nat) :
    (frame_body ft d).length = frame_len ft d := by
  simp [frame_body, frame_len, calculate_frame_length,
    generate_address_identifier]

lemma frame_len_eq (ft : Nat) (d : List Nat) :
    frame_len ft d = 9 + d.length := by
  simp [frame_len, calculate_frame_length, generate_address_identifier]
  omega

lemma parseBody_ok_false (ft : Nat) (d : List Nat) :
    parseBody (frame_body ft d ++ [appended_checksum ft d]) false =
      .ok ⟨ft, d, false⟩ := by
  have hBlen := frame_body_length ft d
  have hL := frame_len_eq ft d
  have h0 : (frame_body ft d ++ [appended_checksum ft d]).getD 0 0 =
      frame_len ft d := rfl
  have hlen : (frame_body ft d ++ [appended_checksum ft d]).length =
      frame_len ft d + 1 := by
    simp [hBlen]
  have htake : (frame_body ft d ++ [appended_checksum ft d]).take
      (frame_len ft d) = frame_body ft d := by
    rw [← hBlen]
    exact List.take_left _ _
  have hgetL : (frame_body ft d ++ [appended_checksum ft d]).getD
      (frame_len ft d) 0 = appended_checksum ft d := by
    rw [List.getD_eq_getElem?_getD,
      List.getElem?_append_right (by omega), hBlen]
    simp
  have htype : (frame_body ft d ++ [appended_checksum ft d]).getD 8 0 =
      ft := rfl
  have hdrop : (frame_body ft d ++ [appended_checksum ft d]).drop 9 =
      d ++ [appended_checksum ft d] := rfl
  have hsub : frame_len ft d - 9 = d.length := by omega
  simp only [parseBody, h0, hlen, htake, hgetL, htype, hdrop, hsub]
  rw [if_pos (show appended_checksum ft d =
    calculate_checksum (frame_len ft d) (frame_body ft d) from rfl)]
  simp [List.take_left]
  omega

lemma parseBody_ok_true (ft : Nat) (d : List Nat) :
    parseBody (frame_body ft d ++ appended_checksum ft d ::
        [appended_crc ft d &&& 0xFF, (appended_crc ft d >>> 8) &&& 0xFF])
      true = .ok ⟨ft, d, true⟩ := by
  have hBlen := frame_body_length ft d
  have hL := frame_len_eq ft d
  set tail : List Nat :=
    appended_checksum ft d ::
      [appended_crc ft d &&& 0xFF, (appended_crc ft d >>> 8) &&& 0xFF]
    with htail
  have h0 : (frame_body ft d ++ tail).getD 0 0 = frame_len ft d := rfl
  have hlen : (frame_body ft d ++ tail).length = frame_len ft d + 3 := by
    simp [hBlen, htail]
  have htake : (frame_body ft d ++ tail).take (frame_len ft d) =
      frame_body ft d := by
    rw [← hBlen]
    exact List.take_left _ _
  have hget : ∀ k : Nat, (frame_body ft d ++ tail).getD
      (frame_len ft d + k) 0 = tail.getD k 0 := by
    intro k
    rw [List.getD_eq_getElem?_getD, List.getElem?_append_right (by omega),
      hBlen, Nat.add_sub_cancel_left, ← List.getD_eq_getElem?_getD]
  have htype : (frame_body ft d ++ tail).getD 8 0 = ft := rfl
  have hdrop : (frame_body ft d ++ tail).drop 9 = d ++ tail := rfl
  have hsub : frame_len ft d - 9 = d.length := by omega
  have hg0 := hget 0
  have hg1 := hget 1
  have hg2 := hget 2
  rw [Nat.add_zero] at hg0
  simp only [parseBody, h0, hlen, htake, hg0, hg1, hg2, htype, hdrop, hsub,
    if_true]
  rw [if_pos (show (1:Nat) + frame_len ft d + 2 ≤ frame_len ft d + 3 by omega),
    if_pos (show tail.getD 0 0 =
      calculate_checksum (frame_len ft d) (frame_body ft d) from rfl),
    if_pos (show tail.getD 1 0 = calculate_crc16 (frame_body ft d) &&& 255 ∧
      tail.getD 2 0 = calculate_crc16 (frame_body ft d) >>> 8 &&& 255
      from ⟨rfl, rfl⟩)]
  simp [List.take_left]

lemma unescaped_take_two (ft : Nat) (d : List Nat) (u : Bool) :
    (unescaped_frame ft d u).take 2 = [0xFF, 0xFF] := rfl

lemma unescaped_drop_two (ft : Nat) (d : List Nat) (u : Bool) :
    (unescaped_frame ft d u).drop 2 =
      frame_body ft d ++ appended_checksum ft d ::
        (if u then
          [appended_crc ft d &&& 0xFF, (appended_crc ft d >>> 8) &&& 0xFF]
        else []) := rfl

/-- C2 (counterexample): decoding, in the specification's stated order
(header check before unstuffing), rejects the encoding of the concrete
frame (type `0x61`, payload `[0x00]`, no CRC) with `HeaderMismatch`
instead of returning the frame, because `build_frame` byte-stuffs the
header itself. -/
theorem decode_encode_counterexample :
    decode (build_frame 0x61 [0x00] false) false =
      .error .HeaderMismatch ∧
    (Except.error .HeaderMismatch : Except FrameError Frame) ≠
      .ok ⟨0x61, [0x00], false⟩ := by
  refine ⟨rfl, by simp⟩

/-- C2 (amended): for every logical frame (type, payload, CRC flag), the
spec-ordered decoder rejects `build_frame`'s output with `HeaderMismatch`
— `build_frame` stuffs the whole frame, so its output begins `FF 55` —
while the header-inclusive-stuffing decoder, which removes the stuffing
before verifying the header, satisfies the round trip: it verifies the
header, recomputes the checksum over the same span, and returns the
original type and payload unchanged. -/
theorem decode_encode_round_trip (frame_type : Nat) (payload : List Nat)
    (use_crc : Bool) :
    decode (build_frame frame_type payload use_crc) use_crc =
      .error .HeaderMismatch ∧
    decode_header_stuffed (build_frame frame_type payload use_crc) use_crc =
      .ok ⟨frame_type, payload, use_crc⟩ := by
  rw [build_frame_eq]
  constructor
  · have htake : (escape_data (unescaped_frame frame_type payload use_crc)).take 2 =
        [0xFF, 0x55] := by
      rw [unescaped_frame]
      simp only [List.cons_append, escape_cons_ff, List.take_succ_cons,
        List.take_zero]
    simp [decode, htake]
  · simp only [decode_header_stuffed, unstuff_escape]
    rw [unescaped_take_two, if_pos rfl, unescaped_drop_two]
    cases use_crc
    · simpa using parseBody_ok_false frame_type payload
    · simpa using parseBody_ok_true frame_type payload

/-! ## String primitives

Python string operations re-implemented structurally on `List Char` so
that all capture-analysis definitions evaluate by kernel reduction. -/

/-- Python `needle in haystack` on character lists. -/
def hasSubstrL (pat : List Char) : List Char → Bool
  | [] => pat.isEmpty
  | c :: rest => pat.isPrefixOf (c :: rest) || hasSubstrL pat rest

/-- Python `s.startswith(p)`. -/
def strHasPrefix (p s : String) : Bool := p.data.isPrefixOf s.data

/-- Python `p in s`. -/
def strHasSub (p s : String) : Bool := hasSubstrL p.data s.data

/-! ## Phase classifier (`state_machine_analysis.py`) -/

/-- The protocol-phase labels returned by `determine_state`. -/
inductive StateLabel where
  | POWER_RESET | SESSION_START | CONTROLLER_READY | HANDSHAKE_INIT
  | HANDSHAKE_ACK | DEVICE_ID | FIRMWARE_INFO | MODEL_INFO | SERIAL_INFO
  | AUTH_CHALLENGE | AUTH_RESPONSE | STATUS_RESPONSE | DATA_RESPONSE
  | STATUS_QUERY | QUERY_ACK | PROGRAM_COMMAND | RESET_COMMAND
  | RESET_CONFIRM | HEARTBEAT_ACK | CONTROL_SIGNAL | COMPLEX_COMMAND
  | TIMESTAMP_SYNC | UNKNOWN
deriving DecidableEq, Repr

/-- Source `determine_state` from `state_machine_analysis.py`: the ordered
first-match rule chain classifying a message's hex text and sending
device into a protocol phase. -/
def determine_state (data device : String) : StateLabel :=
  if data == "00" then .POWER_RESET
  else if strHasPrefix "ff ff 0a 00" data then .SESSION_START
  else if strHasPrefix "ff ff 08 40" data && strHasSub "70" data then
    .CONTROLLER_READY
  else if strHasPrefix "ff ff 0a 40" data && strHasSub "01 4d 01" data then
    .HANDSHAKE_INIT
  else if strHasPrefix "ff ff 08 40" data && strHasSub "73" data then
    .HANDSHAKE_ACK
  else if strHasPrefix "ff ff 19 40" data && strHasSub "11 00 f0" data then
    .DEVICE_ID
  else if strHasPrefix "ff ff 2e 40" data && strHasSub "62" data then
    .FIRMWARE_INFO
  else if strHasPrefix "ff ff 2e 40" data && strHasSub "ec" data then
    .MODEL_INFO
  else if strHasPrefix "ff ff 2c 40" data && strHasSub "ea" data then
    .SERIAL_INFO
  else if strHasPrefix "ff ff 25 40" data && device == "machine" then
    .AUTH_CHALLENGE
  else if strHasPrefix "ff ff 25 40" data && device == "modem" then
    .AUTH_RESPONSE
  else if strHasPrefix "ff ff 43 40" data && strHasSub "6d 01" data then
    .STATUS_RESPONSE
  else if strHasPrefix "ff ff 46 40" data && strHasSub "6d 02" data then
    .DATA_RESPONSE
  else if strHasPrefix "ff ff 0a 40" data && strHasSub "f3" data then
    .STATUS_QUERY
  else if strHasPrefix "ff ff 0a 40" data && strHasSub "f5" data then
    .QUERY_ACK
  else if strHasPrefix "ff ff 0e 40" data && strHasSub "60" data then
    .PROGRAM_COMMAND
  else if strHasPrefix "ff ff 0c 40" data && strHasSub "5d 1f" data then
    .RESET_COMMAND
  else if strHasPrefix "ff ff 12 40" data && strHasSub "0f 5a" data then
    .RESET_CONFIRM
  else if strHasPrefix "ff ff 08 40" data && strHasSub "4d 61" data then
    .HEARTBEAT_ACK
  else if strHasPrefix "ff ff 08 40" data && strHasSub "51 64" data then
    .CONTROL_SIGNAL
  else if strHasPrefix "ff ff 22 40" data && strHasSub "f7" data then
    .COMPLEX_COMMAND
  else if strHasPrefix "ff ff 20 40" data && strHasSub "11 10 00" data then
    .TIMESTAMP_SYNC
  else .UNKNOWN

lemma strHasPrefix_false_of {p : String} (q : String) {data : String}
    (hp : strHasPrefix p data = true) (hlen : q.data.length = p.data.length)
    (hne : q.data ≠ p.data) : strHasPrefix q data = false := by
  rw [strHasPrefix] at hp ⊢
  by_contra hq
  rw [Bool.not_eq_false, List.isPrefixOf_iff_prefix] at hq
  rw [ List.isPrefixOf_iff_prefix] at hp
  exact hne (List.IsPrefix.eq_of_length
    (List.prefix_of_prefix_length_le hq hp (le_of_eq hlen)) hlen)

lemma data_ne_of_prefixed {p data : String} (q : String)
    (hp : strHasPrefix p data = true) (hlen : q.data.length < p.data.length) :
    (data == q) = false := by
  rw [strHasPrefix, List.isPrefixOf_iff_prefix] at hp
  have hle := hp.length_le
  rw [beq_eq_false_iff_ne]
  intro h
  subst h
  omega

lemma determine_state_session {data : String} (device : String)
    (hp : strHasPrefix "ff ff 0a 00" data = true) :
    determine_state data device = .SESSION_START := by
  have h00 := data_ne_of_prefixed "00" hp (by decide)
  rw [determine_state, h00, if_neg (by simp), if_pos (by simp [hp])]

lemma determine_state_auth {data : String}
    (hp : strHasPrefix "ff ff 25 40" data = true) :
    determine_state data "machine" = .AUTH_CHALLENGE ∧
    determine_state data "modem" = .AUTH_RESPONSE := by
  have h00 := data_ne_of_prefixed "00" hp (by decide)
  have h1 := strHasPrefix_false_of "ff ff 0a 00" hp (by decide) (by decide)
  have h2 := strHasPrefix_false_of "ff ff 08 40" hp (by decide) (by decide)
  have h3 := strHasPrefix_false_of "ff ff 0a 40" hp (by decide) (by decide)
  have h4 := strHasPrefix_false_of "ff ff 19 40" hp (by decide) (by decide)
  have h5 := strHasPrefix_false_of "ff ff 2e 40" hp (by decide) (by decide)
  have h6 := strHasPrefix_false_of "ff ff 2c 40" hp (by decide) (by decide)
  constructor <;>
    simp [determine_state, h00, h1, h2, h3, h4, h5, h6, hp]

/-- C5: `determine_state` maps any data string beginning `ff ff 0a 00`
 — in particular the literal `ff ff 0a 00 00 00 00 00 00 00 00 00 00` —
to `SESSION_START`, maps any data string beginning `ff ff 25 40` to
`AUTH_CHALLENGE` for device `"machine"` and to `AUTH_RESPONSE` for device
`"modem"`, and is deterministic: equal inputs always yield the same
state. -/
theorem determine_state_classification :
    (∀ data device : String, strHasPrefix "ff ff 0a 00" data = true →
      determine_state data device = .SESSION_START) ∧
    determine_state "ff ff 0a 00 00 00 00 00 00 00 00 00 00" "modem" =
      .SESSION_START ∧
    (∀ data : String, strHasPrefix "ff ff 25 40" data = true →
      determine_state data "machine" = .AUTH_CHALLENGE ∧
      determine_state data "modem" = .AUTH_RESPONSE) ∧
    (∀ (d₁ d₂ e₁ e₂ : String), d₁ = d₂ → e₁ = e₂ →
      determine_state d₁ e₁ = determine_state d₂ e₂) := by
  refine ⟨fun data device hp => determine_state_session device hp,
    determine_state_session "modem" (by decide),
    fun data hp => determine_state_auth hp,
    fun d₁ d₂ e₁ e₂ h₁ h₂ => by rw [h₁, h₂]⟩

/-- C5 (witness): the classifier applied to concrete capture lines. -/
theorem determine_state_classification_witness :
    determine_state "ff ff 0a 00 00 00 00 00 00 00 00 00 00" "machine" =
      .SESSION_START ∧
    determine_state "ff ff 25 40 00" "machine" = .AUTH_CHALLENGE := by
  refine ⟨determine_state_classification.1 _ "machine" (by decide),
    (determine_state_classification.2.2.1 _ (by decide)).1⟩

/-- C4 (counterexample): a type-0x25-prefixed frame sent by the
controller (device `"modem"`) is classified `AUTH_RESPONSE`, not
`AUTH_CHALLENGE` as the claim states. -/
theorem auth_labels_counterexample :
    determine_state "ff ff 25 40 00" "modem" = .AUTH_RESPONSE ∧
    StateLabel.AUTH_RESPONSE ≠ .AUTH_CHALLENGE := by
  refine ⟨rfl, by decide⟩

/-- C4 (amended): for every frame whose hex text carries the type-0x25
prefix `"ff ff 25 40"`, classification yields `AUTH_CHALLENGE` when the
sender is the appliance (device `"machine"`) and `AUTH_RESPONSE` when the
sender is the controller (device `"modem"`). -/
theorem auth_labels_by_device (data : String)
    (hp : strHasPrefix "ff ff 25 40" data = true) :
    determine_state data "machine" = .AUTH_CHALLENGE ∧
    determine_state data "modem" = .AUTH_RESPONSE :=
  determine_state_auth hp

/-- C4 (witness): `auth_labels_by_device` at a concrete frame text. -/
theorem auth_labels_by_device_witness :
    determine_state "ff ff 25 40 00 00 00 00 00 00 12 10 02 00 01" "machine" =
      .AUTH_CHALLENGE :=
  (auth_labels_by_device _ (by decide)).1

/-! ## Power-cycle grouping (`analyze_rolling.py`)

`analyze_power_cycles` groups the `(timestamp, device)` power-cycle
markers into cycles: consecutive markers at most 5 seconds apart extend
the current group, a larger gap closes it, and a group is emitted exactly
when it holds at least two markers.  `analyze_power_cycle_impact` in
`detailed_rolling_analysis.py` repeats the identical grouping logic. -/

/-- The grouping loop of `analyze_power_cycles`: `cycles` is the list of
finished cycles, `current` the open group. -/
def cycles_go (cycles : List (List (Int × String)))
    (current : List (Int × String)) :
    List (Int × String) → List (List (Int × String))
  | [] => if 2 ≤ current.length then cycles ++ [current] else cycles
  | (t, dev) :: rest =>
    match current.getLast? with
    | none => cycles_go cycles [(t, dev)] rest
    | some last =>
      if t - last.1 ≤ 5 then
        cycles_go cycles (current ++ [(t, dev)]) rest
      else
        cycles_go (if 2 ≤ current.length then cycles ++ [current] else cycles)
          [(t, dev)] rest

/-- Source `analyze_power_cycles` (grouping part): start with no cycles and an
empty current group. -/
def analyze_power_cycles (power_cycles : List (Int × String)) :
    List (List (Int × String)) :=
  cycles_go [] [] power_cycles

/-- C7 (counterexample): two power-cycle markers both sent by `"modem"`
3 seconds apart form a reported cycle, so marker frames coming from only
one of the two devices do form a boundary. -/
theorem power_cycle_single_device_counterexample :
    analyze_power_cycles [((100 : Int), "modem"), (103, "modem")] =
      [[((100 : Int), "modem"), (103, "modem")]] ∧
    [[((100 : Int), "modem"), (103, "modem")]] ≠
      ([] : List (List (Int × String))) ∧
    (∀ x ∈ [((100 : Int), "modem"), (103, "modem")], x.2 = "modem") := by
  refine ⟨by decide, by decide, by decide⟩

/-- The maximal-run decomposition of the marker list: `cur` (nonempty,
in order) is the run being built; a marker at most 5 seconds after the
run's last marker extends the run, anything else closes it and starts a
new one.  Unlike `cycles_go`, every run is kept, so the result is the
full partition of the input into maximal ≤5-second chains. -/
def runsGo (cur : List (Int × String)) :
    List (Int × String) → List (List (Int × String))
  | [] => [cur]
  | x :: rest =>
    match cur.getLast? with
    | none => runsGo [x] rest
    | some last =>
      if x.1 - last.1 ≤ 5 then runsGo (cur ++ [x]) rest
      else cur :: runsGo [x] rest

/-- All maximal runs of consecutive markers with successive timestamps
at most 5 seconds apart. -/
def maximal_runs : List (Int × String) → List (List (Int × String))
  | [] => []
  | x :: rest => runsGo [x] rest

lemma exists_getLast {α : Type} {l : List α} (h : l ≠ []) :
    ∃ a, l.getLast? = some a := by
  cases l with
  | nil => exact absurd rfl h
  | cons c cs => exact ⟨(c :: cs).getLast (by simp), List.getLast?_eq_getLast _ _⟩

lemma cycles_go_eq_runs (input : List (Int × String)) :
    ∀ (cycles : List (List (Int × String))) (cur : List (Int × String)),
      cur ≠ [] →
      cycles_go cycles cur input =
        cycles ++ (runsGo cur input).filter (fun c => 2 ≤ c.length) := by
  induction input with
  | nil =>
    intro cycles cur h
    by_cases h2 : 2 ≤ cur.length <;> simp [cycles_go, runsGo, h2]
  | cons x rest ih =>
    intro cycles cur h
    obtain ⟨last, hlast⟩ := exists_getLast h
    obtain ⟨t, dev⟩ := x
    simp only [cycles_go, runsGo, hlast]
    by_cases ht : t - last.1 ≤ 5
    · rw [if_pos ht, if_pos ht]
      exact ih cycles (cur ++ [(t, dev)]) (by simp)
    · rw [if_neg ht, if_neg ht, ih _ [(t, dev)] (by simp)]
      by_cases h2 : 2 ≤ cur.length
      · rw [if_pos h2]
        simp [List.filter_cons, h2, List.append_assoc]
      · rw [if_neg h2]
        simp [List.filter_cons, h2]

lemma runsGo_flatten (input : List (Int × String)) :
    ∀ cur, (runsGo cur input).flatten = cur ++ input := by
  induction input with
  | nil => intro cur; simp [runsGo]
  | cons x rest ih =>
    intro cur
    cases hlast : cur.getLast? with
    | none =>
      cases cur with
      | nil =>
        simp only [runsGo, List.getLast?_nil]
        rw [ih [x]]
        simp
      | cons c cs => simp [List.getLast?_eq_getLast (c :: cs) (by simp)] at hlast
    | some last =>
      simp only [runsGo, hlast]
      by_cases ht : x.1 - last.1 ≤ 5
      · rw [if_pos ht, ih (cur ++ [x])]
        simp
      · rw [if_neg ht]
        simp [ih [x]]

lemma runsGo_runs_ok (input : List (Int × String)) :
    ∀ cur, cur ≠ [] →
      List.Chain' (fun a b : Int × String => b.1 - a.1 ≤ 5) cur →
      ∀ r ∈ runsGo cur input,
        r ≠ [] ∧ List.Chain' (fun a b : Int × String => b.1 - a.1 ≤ 5) r := by
  induction input with
  | nil =>
    intro cur h hchain r hr
    simp only [runsGo, List.mem_singleton] at hr
    subst hr
    exact ⟨h, hchain⟩
  | cons x rest ih =>
    intro cur h hchain r hr
    obtain ⟨last, hlast⟩ := exists_getLast h
    simp only [runsGo, hlast] at hr
    by_cases ht : x.1 - last.1 ≤ 5
    · rw [if_pos ht] at hr
      refine ih (cur ++ [x]) (by simp) ?_ r hr
      rw [List.chain'_append]
      refine ⟨hchain, List.chain'_singleton _, fun a ha b hb => ?_⟩
      rw [hlast, Option.mem_some_iff] at ha
      rw [List.head?_cons, Option.mem_some_iff] at hb
      subst ha; subst hb
      exact ht
    · rw [if_neg ht] at hr
      rcases List.mem_cons.mp hr with rfl | hr
      · exact ⟨h, hchain⟩
      · exact ih [x] (by simp) (List.chain'_singleton _) r hr

lemma runsGo_sep (input : List (Int × String)) :
    ∀ cur, cur ≠ [] →
      List.Chain' (fun r1 r2 : List (Int × String) =>
        ∀ a ∈ r1.getLast?, ∀ b ∈ r2.head?, 5 < b.1 - a.1)
        (runsGo cur input) ∧
      ∀ r ∈ (runsGo cur input).head?, r.head? = cur.head? := by
  induction input with
  | nil =>
    intro cur h
    refine ⟨List.chain'_singleton _, fun r hr => ?_⟩
    simp only [runsGo, List.head?_cons, Option.mem_some_iff] at hr
    subst hr
    rfl
  | cons x rest ih =>
    intro cur h
    obtain ⟨last, hlast⟩ := exists_getLast h
    simp only [runsGo, hlast]
    by_cases ht : x.1 - last.1 ≤ 5
    · rw [if_pos ht]
      have hih := ih (cur ++ [x]) (by simp)
      have hhead : (cur ++ [x]).head? = cur.head? := by
        cases cur with
        | nil => exact absurd rfl h
        | cons c cs => rfl
      exact ⟨hih.1, fun r hr => by rw [hih.2 r hr, hhead]⟩
    · rw [if_neg ht]
      have hih := ih [x] (by simp)
      constructor
      · rw [List.chain'_cons']
        refine ⟨fun b hb => ?_, hih.1⟩
        intro a ha y hy
        rw [hlast, Option.mem_some_iff] at ha
        subst ha
        rw [hih.2 b hb, List.head?_cons, Option.mem_some_iff] at hy
        subst hy
        omega
      · intro r hr
        rw [List.head?_cons, Option.mem_some_iff] at hr
        subst hr
        rfl

/-- C7 (amended): a power-cycle boundary is recognized exactly for the
maximal runs of consecutive markers with successive timestamps at most 5
seconds apart that contain at least two markers, irrespective of which
devices sent them: `analyze_power_cycles` equals the maximal-run
decomposition of the marker list filtered to runs of length at least two
— and `maximal_runs` is genuinely that decomposition: its runs
concatenate back to the input in order, each run is nonempty and
internally chained with gaps at most 5 seconds, and consecutive runs are
separated by a gap of more than 5 seconds (maximality). -/
theorem power_cycle_boundary_characterization
    (power_cycles : List (Int × String)) :
    analyze_power_cycles power_cycles =
      (maximal_runs power_cycles).filter (fun c => 2 ≤ c.length) ∧
    (maximal_runs power_cycles).flatten = power_cycles ∧
    (∀ r ∈ maximal_runs power_cycles,
      r ≠ [] ∧ List.Chain' (fun a b : Int × String => b.1 - a.1 ≤ 5) r) ∧
    List.Chain' (fun r1 r2 : List (Int × String) =>
      ∀ a ∈ r1.getLast?, ∀ b ∈ r2.head?, 5 < b.1 - a.1)
      (maximal_runs power_cycles) := by
  cases power_cycles with
  | nil =>
    refine ⟨rfl, rfl, ?_, List.chain'_nil⟩
    intro r hr
    simp [maximal_runs] at hr
  | cons x rest =>
    refine ⟨?_, ?_, ?_, ?_⟩
    · show cycles_go [] [] (x :: rest) = _
      obtain ⟨t, dev⟩ := x
      simp only [cycles_go, List.getLast?_nil]
      rw [cycles_go_eq_runs rest [] [(t, dev)] (by simp)]
      rfl
    · rw [show maximal_runs (x :: rest) = runsGo [x] rest from rfl,
        runsGo_flatten rest [x]]
      rfl
    · exact runsGo_runs_ok rest [x] (by simp) (List.chain'_singleton _)
    · exact (runsGo_sep rest [x] (by simp)).1

/-- C7 (witness): `power_cycle_boundary_characterization` applied to a
concrete capture with a two-marker run and an isolated marker: the
two-marker run is a reported boundary, nonempty and 5-second-chained. -/
theorem power_cycle_boundary_characterization_witness :
    ([((100 : Int), "modem"), (103, "machine")] : List (Int × String)) ≠ [] ∧
    List.Chain' (fun a b : Int × String => b.1 - a.1 ≤ 5)
      [((100 : Int), "modem"), (103, "machine")] :=
  (power_cycle_boundary_characterization
      [(100, "modem"), (103, "machine"), (200, "modem")]).2.2.1
    [(100, "modem"), (103, "machine")] (by decide)

/-! ## More string primitives for capture-line parsing -/

/-- Python `str.split(sep, 1)` when it finds the separator: the text
before the first occurrence and the text after it. -/
def splitOnceL (sep : List Char) : List Char → Option (List Char × List Char)
  | [] => none
  | c :: rest =>
    if sep.isPrefixOf (c :: rest) then some ([], (c :: rest).drop sep.length)
    else
      match splitOnceL sep rest with
      | some (a, b) => some (c :: a, b)
      | none => none

/-- Helper for `wordsL`: `cur` holds the reversed current word. -/
def wordsGo (cur : List Char) : List Char → List (List Char)
  | [] => if cur.isEmpty then [] else [cur.reverse]
  | c :: rest =>
    if c.isWhitespace then
      if cur.isEmpty then wordsGo [] rest
      else cur.reverse :: wordsGo [] rest
    else wordsGo (c :: cur) rest

/-- Python `str.split()` with no argument: whitespace runs separate
words, empty words are dropped. -/
def wordsL (l : List Char) : List (List Char) := wordsGo [] l

/-- Python `str.strip()`. -/
def trimL (l : List Char) : List Char :=
  ((l.dropWhile Char.isWhitespace).reverse.dropWhile Char.isWhitespace).reverse

/-- Python `re.search(r'(\d+)', s)`: the first maximal digit run. -/
def firstDigitRun : List Char → Option (List Char)
  | [] => none
  | c :: rest =>
    if c.isDigit then some ((c :: rest).takeWhile Char.isDigit)
    else firstDigitRun rest

/-- Python `int(...)` on a digit string. -/
def digitsToNat (l : List Char) : Nat :=
  l.foldl (fun acc c => 10 * acc + (c.toNat - 48)) 0

/-! ## Duplicate-challenge analysis (`duplicate_challenge_analyzer.py`) -/

/-- One record produced by `extract_rolling_codes_with_context`. -/
structure RollingCode where
  line_number : Nat
  timestamp : Nat
  device : String
  challenge : String
  response : String
  full_data : String
  hex_parts : List String
deriving DecidableEq, Repr

/-- The per-line body of `extract_rolling_codes_with_context`: strip the
line, split once on `" - "`, require a digit run in the prefix (the
timestamp), take the prefix's first word as the device, and — when the
data starts with `ff ff 25 40` and splits into at least 15 hex parts —
produce a record whose challenge joins parts 8..15 and whose response
joins the remaining parts. -/
def extractLine (line_num : Nat) (line : String) : Option RollingCode :=
  let l := trimL line.data
  if l.isEmpty then none
  else
    match splitOnceL (" - ".data) l with
    | none => none
    | some (pre, data) =>
      match firstDigitRun pre with
      | none => none
      | some ds =>
        let device := match wordsL pre with
          | [] => ""
          | w :: _ => String.mk w
        if strHasPrefix "ff ff 25 40" (String.mk data) then
          let hex_parts := (wordsL data).map String.mk
          if 15 ≤ hex_parts.length then
            some { line_number := line_num, timestamp := digitsToNat ds,
                   device := device,
                   challenge := String.join ((hex_parts.drop 8).take 8),
                   response := String.join (hex_parts.drop 16),
                   full_data := String.mk data, hex_parts := hex_parts }
          else none
        else none

/-- The line loop of `extract_rolling_codes_with_context`, with
`enumerate(lines, 1)` line numbering. -/
def extractGo (line_num : Nat) : List String → List RollingCode
  | [] => []
  | line :: rest =>
    match extractLine line_num line with
    | some rc => rc :: extractGo (line_num + 1) rest
    | none => extractGo (line_num + 1) rest

/-- Source `extract_rolling_codes_with_context` over the lines of a capture. -/
def extract_rolling_codes_with_context (lines : List String) :
    List RollingCode :=
  extractGo 1 lines

/-- Appending a record to its challenge's group: the Python
`challenge_groups[code['challenge']].append(code)` on an
insertion-ordered dict, represented as an association list. -/
def groupInsert (r : RollingCode) :
    List (String × List RollingCode) → List (String × List RollingCode)
  | [] => [(r.challenge, [r])]
  | (k, v) :: rest =>
    if k = r.challenge then (k, v ++ [r]) :: rest
    else (k, v) :: groupInsert r rest

/-- The grouping pass of `find_duplicate_challenges`. -/
def challenge_groups (codes : List RollingCode) :
    List (String × List RollingCode) :=
  codes.foldl (fun acc r => groupInsert r acc) []

/-- Source `find_duplicate_challenges`: keep exactly the challenge groups with
more than one occurrence. -/
def find_duplicate_challenges (codes : List RollingCode) :
    List (String × List RollingCode) :=
  (challenge_groups codes).filter (fun p => 1 < p.2.length)

lemma groupInsert_filter_ne (r : RollingCode) {ch : String}
    (h : r.challenge ≠ ch) :
    ∀ acc, (groupInsert r acc).filter (fun p => p.1 = ch) =
      acc.filter (fun p => p.1 = ch) := by
  intro acc
  induction acc with
  | nil => simp [groupInsert, h]
  | cons kv rest ih =>
    obtain ⟨k, v⟩ := kv
    by_cases hk : k = r.challenge
    · subst hk
      simp [groupInsert, List.filter_cons, h, ih]
    · by_cases hkc : k = ch
      · subst hkc
        simp [groupInsert, hk, List.filter_cons, ih]
      · simp [groupInsert, hk, List.filter_cons, hkc, ih]

lemma groupInsert_filter_eq (r : RollingCode) :
    ∀ acc, (groupInsert r acc).filter (fun p => p.1 = r.challenge) =
      match acc.filter (fun p => p.1 = r.challenge) with
      | [] => [(r.challenge, [r])]
      | (k, v) :: tail => (k, v ++ [r]) :: tail := by
  intro acc
  induction acc with
  | nil => simp [groupInsert]
  | cons kv rest ih =>
    obtain ⟨k, v⟩ := kv
    by_cases hk : k = r.challenge
    · subst hk
      simp [groupInsert, List.filter_cons]
    · simp [groupInsert, hk, List.filter_cons, ih]

lemma groups_step (r : RollingCode) (acc : List (String × List RollingCode))
    (processed : List RollingCode)
    (hinv : ∀ ch, acc.filter (fun p => p.1 = ch) =
      if processed.filter (fun x => x.challenge = ch) = [] then []
      else [(ch, processed.filter (fun x => x.challenge = ch))]) :
    ∀ ch, (groupInsert r acc).filter (fun p => p.1 = ch) =
      if (processed ++ [r]).filter (fun x => x.challenge = ch) = [] then []
      else [(ch, (processed ++ [r]).filter (fun x => x.challenge = ch))] := by
  intro ch
  by_cases hch : r.challenge = ch
  · subst hch
    rw [groupInsert_filter_eq, hinv]
    have hr : (processed ++ [r]).filter
        (fun x => x.challenge = r.challenge) =
        processed.filter (fun x => x.challenge = r.challenge) ++ [r] := by
      simp [List.filter_append]
    rw [hr]
    by_cases hp : processed.filter (fun x => x.challenge = r.challenge) = []
    · rw [if_pos hp, hp]
      simp
    · rw [if_neg hp]
      rcases hq : processed.filter (fun x => x.challenge = r.challenge) with
        _ | ⟨q, qs⟩
      · exact absurd hq hp
      · simp
  · rw [groupInsert_filter_ne r hch, hinv]
    have hr : (processed ++ [r]).filter (fun x => x.challenge = ch) =
        processed.filter (fun x => x.challenge = ch) := by
      simp [List.filter_append, hch]
    rw [hr]

lemma challenge_groups_inv :
    ∀ (codes : List RollingCode) (acc : List (String × List RollingCode))
      (processed : List RollingCode),
    (∀ ch, acc.filter (fun p => p.1 = ch) =
      if processed.filter (fun x => x.challenge = ch) = [] then []
      else [(ch, processed.filter (fun x => x.challenge = ch))]) →
    ∀ ch, (codes.foldl (fun a r => groupInsert r a) acc).filter
        (fun p => p.1 = ch) =
      if (processed ++ codes).filter (fun x => x.challenge = ch) = [] then []
      else [(ch, (processed ++ codes).filter (fun x => x.challenge = ch))] := by
  intro codes
  induction codes with
  | nil =>
    intro acc processed h ch
    simpa using h ch
  | cons r rest ih =>
    intro acc processed h ch
    have h' := groups_step r acc processed h
    have hmain := ih (groupInsert r acc) (processed ++ [r]) h' ch
    simpa [List.append_assoc] using hmain

lemma challenge_groups_spec (codes : List RollingCode) (ch : String) :
    (challenge_groups codes).filter (fun p => p.1 = ch) =
      if codes.filter (fun x => x.challenge = ch) = [] then []
      else [(ch, codes.filter (fun x => x.challenge = ch))] := by
  have h := challenge_groups_inv codes [] []
    (by intro ch; simp) ch
  simpa using h

/-- C3: for every capture and challenge value, duplicate-challenge
detection reports exactly one record for the value precisely when it
occurs at least twice among the extracted type-0x25 rolling-code records,
that record lists all occurrences (line numbers, timestamps, devices) in
capture order, and values occurring at most once are never reported. -/
theorem duplicate_challenge_detection (lines : List String) (ch : String) :
    (find_duplicate_challenges
        (extract_rolling_codes_with_context lines)).filter
        (fun p => p.1 = ch) =
      if 2 ≤ ((extract_rolling_codes_with_context lines).filter
          (fun r => r.challenge = ch)).length then
        [(ch, (extract_rolling_codes_with_context lines).filter
            (fun r => r.challenge = ch))]
      else [] := by
  have hspec := challenge_groups_spec (extract_rolling_codes_with_context lines) ch
  rw [find_duplicate_challenges]
  have hcomm : ((challenge_groups (extract_rolling_codes_with_context lines)).filter
      (fun p => 1 < p.2.length)).filter (fun p => p.1 = ch) =
      ((challenge_groups (extract_rolling_codes_with_context lines)).filter
        (fun p => p.1 = ch)).filter (fun p => 1 < p.2.length) := by
    rw [List.filter_filter, List.filter_filter]
    congr 1
    funext p
    rw [Bool.and_comm]
  rw [hcomm, hspec]
  by_cases hp : (extract_rolling_codes_with_context lines).filter
      (fun r => r.challenge = ch) = []
  · rw [if_pos hp]
    rw [if_neg (by rw [hp]; simp)]
    simp
  · rw [if_neg hp]
    by_cases h2 : 2 ≤ ((extract_rolling_codes_with_context lines).filter
        (fun r => r.challenge = ch)).length
    · rw [if_pos h2]
      simp only [List.filter_cons, List.filter_nil, decide_eq_true_eq]
      rw [if_pos (by omega)]
    · rw [if_neg h2]
      simp only [List.filter_cons, List.filter_nil, decide_eq_true_eq]
      rw [if_neg (by omega)]

/-- C3 (witness): two `AUTH_CHALLENGE` capture lines carrying the same
8-byte challenge value at different timestamps yield exactly one
duplicate record listing both occurrences. -/
theorem duplicate_challenge_detection_witness :
    (find_duplicate_challenges (extract_rolling_codes_with_context
      ["machine 1001 - ff ff 25 40 00 00 00 00 00 12 10 02 00 01 aa bb cc dd",
       "machine 1002 - ff ff 25 40 00 00 00 00 00 12 10 02 00 01 aa bb ee ff"])).filter
      (fun p => p.1 = "001210020001aabb") =
      [("001210020001aabb", (extract_rolling_codes_with_context
        ["machine 1001 - ff ff 25 40 00 00 00 00 00 12 10 02 00 01 aa bb cc dd",
         "machine 1002 - ff ff 25 40 00 00 00 00 00 12 10 02 00 01 aa bb ee ff"]).filter
        (fun r => r.challenge = "001210020001aabb"))] := by
  rw [duplicate_challenge_detection]
  rw [if_pos (by decide)]

/-! ## Challenge/response pairing (`extract_auth_sequences.py`)

The script scans binary-dump lines (`part0 | prefix | binary`), collects
challenge and response records by substring patterns, keeps the most
recent challenge in `current_challenge` (never clearing it), and pairs
each response with `current_challenge` when one exists.  There is no
session scoping and no anomaly record of any kind. -/

/-- Python `re.search(r'(\d{10})', s)`: the first position where ten
consecutive digits start. -/
def findTenDigits : List Char → Option (List Char)
  | [] => none
  | c :: rest =>
    if ((c :: rest).take 10).length = 10 &&
        ((c :: rest).take 10).all Char.isDigit then
      some ((c :: rest).take 10)
    else findTenDigits rest

/-- Source `extract_timestamp` from `extract_auth_sequences.py`. -/
def extract_timestamp (pre : List Char) : String :=
  match findTenDigits pre with
  | some ds => String.mk ds
  | none => "unknown"

/-- Source `extract_binary_sequence`: space-join the first `expected_bytes`
whitespace-separated parts, or `None` when fewer exist. -/
def extract_binary_sequence (binary_data : List Char)
    (expected_bytes : Nat) : Option String :=
  let parts := wordsL binary_data
  if expected_bytes ≤ parts.length then
    some (String.intercalate " " ((parts.take expected_bytes).map String.mk))
  else none

/-- One challenge or response record collected by the scan. -/
structure AuthRec where
  line : Nat
  pre : String
  atype : String
  data : String
  timestamp : String
deriving DecidableEq, Repr

/-- The loop state of `extract_auth_sequences`. -/
structure AuthState where
  line_count : Nat
  challenges : List AuthRec
  responses : List AuthRec
  pairs : List (AuthRec × AuthRec)
  current_challenge : Option AuthRec
deriving DecidableEq, Repr

/-- Initial loop state. -/
def initAuthState : AuthState := ⟨0, [], [], [], none⟩

/-- Advance `line_count` for a non-empty line. -/
def bump (s : AuthState) : AuthState :=
  { s with line_count := s.line_count + 1 }

/-- Record a challenge and remember it as the current one. -/
def addChallenge (s : AuthState) (c : AuthRec) : AuthState :=
  { s with challenges := s.challenges ++ [c], current_challenge := some c }

/-- Record a response; when a current challenge exists, also append a
pair (the current challenge is not cleared). -/
def addResponse (s : AuthState) (r : AuthRec) : AuthState :=
  match s.current_challenge with
  | some c =>
    { s with responses := s.responses ++ [r], pairs := s.pairs ++ [(c, r)] }
  | none => { s with responses := s.responses ++ [r] }

/-- One iteration of the `extract_auth_sequences` line loop. -/
def authStep (s : AuthState) (line : String) : AuthState :=
  let l := trimL line.data
  if l.isEmpty then s
  else
    let s1 := bump s
    match splitOnceL (" | ".data) l with
    | none => s1
    | some (_, rest1) =>
      match splitOnceL (" | ".data) rest1 with
      | none => s1
      | some (pre, binary) =>
        if hasSubstrL "00100101 01000000".data binary &&
            hasSubstrL "00010010 00010000 00000010 00000000 00000001".data
              binary then
          match extract_binary_sequence binary 25 with
          | some d =>
            addChallenge s1 ⟨s1.line_count, String.mk pre,
              "25-byte challenge", d, extract_timestamp pre⟩
          | none => s1
        else if hasSubstrL "00100101 01000000".data binary &&
            hasSubstrL "00010001 00010000 00000010 00000000 00000001".data
              binary then
          match extract_binary_sequence binary 37 with
          | some d =>
            addChallenge s1 ⟨s1.line_count, String.mk pre,
              "37-byte challenge", d, extract_timestamp pre⟩
          | none => s1
        else if hasSubstrL "00001010 01000000".data binary &&
            hasSubstrL
              "11110011 00000000 00000000 00111101 11010000 11100001".data
              binary then
          match extract_binary_sequence binary 15 with
          | some d =>
            addResponse s1 ⟨s1.line_count, String.mk pre,
              "short response", d, extract_timestamp pre⟩
          | none => s1
        else if hasSubstrL "00001010 01000000".data binary &&
            hasSubstrL
              "11110101 00000000 00000000 00111111 11010001 00000001".data
              binary then
          match extract_binary_sequence binary 15 with
          | some d =>
            addResponse s1 ⟨s1.line_count, String.mk pre,
              "long response", d, extract_timestamp pre⟩
          | none => s1
        else s1

/-- Source `extract_auth_sequences` over a capture's lines. -/
def extract_auth_sequences (lines : List String) : AuthState :=
  lines.foldl authStep initAuthState

/-- Loop invariant of the auth scan: every pair's challenge precedes its
response, response lines are bounded by the line counter and strictly
increasing along the pair list, and the current challenge is bounded by
the line counter. -/
def PairsInv (s : AuthState) : Prop :=
  (∀ p ∈ s.pairs, p.1.line < p.2.line ∧ p.2.line ≤ s.line_count) ∧
  List.Pairwise (fun p q : AuthRec × AuthRec => p.2.line < q.2.line)
    s.pairs ∧
  (∀ c, s.current_challenge = some c → c.line ≤ s.line_count)

lemma bump_inv {s : AuthState} (h : PairsInv s) : PairsInv (bump s) := by
  obtain ⟨h1, h2, h3⟩ := h
  exact ⟨fun p hp => ⟨(h1 p hp).1, Nat.le_succ_of_le (h1 p hp).2⟩, h2,
    fun c hc => Nat.le_succ_of_le (h3 c hc)⟩

lemma addChallenge_inv {s : AuthState} {c : AuthRec} (h : PairsInv s)
    (hc : c.line ≤ s.line_count) : PairsInv (addChallenge s c) := by
  obtain ⟨h1, h2, h3⟩ := h
  refine ⟨h1, h2, fun c' hc' => ?_⟩
  have : some c = some c' := hc'
  injection this with h'
  rw [← h']
  exact hc

lemma addResponse_inv {s : AuthState} {r : AuthRec}
    (h1 : ∀ p ∈ s.pairs, p.1.line < p.2.line ∧ p.2.line < r.line)
    (h2 : List.Pairwise (fun p q : AuthRec × AuthRec => p.2.line < q.2.line)
      s.pairs)
    (h3 : ∀ c, s.current_challenge = some c → c.line < r.line)
    (hr : r.line ≤ s.line_count) :
    PairsInv (addResponse s r) := by
  unfold addResponse
  cases hcur : s.current_challenge with
  | none =>
    refine ⟨fun p hp => ⟨(h1 p hp).1, le_trans (le_of_lt (h1 p hp).2) hr⟩,
      h2, fun c hc => ?_⟩
    cases (show (none : Option AuthRec) = some c from hc)
  | some c0 =>
    refine ⟨?_, ?_, ?_⟩
    · intro p hp
      rcases List.mem_append.mp hp with hp | hp
      · exact ⟨(h1 p hp).1, le_trans (le_of_lt (h1 p hp).2) hr⟩
      · rcases List.mem_singleton.mp hp with rfl
        exact ⟨h3 c0 hcur, hr⟩
    · show List.Pairwise (fun p q : AuthRec × AuthRec => p.2.line < q.2.line)
        (s.pairs ++ [(c0, r)])
      rw [List.pairwise_append]
      refine ⟨h2, List.pairwise_singleton _ _, fun p hp q hq => ?_⟩
      rcases List.mem_singleton.mp hq with rfl
      exact (h1 p hp).2
    · intro c hc
      have h' : some c0 = some c := hc
      injection h' with h'
      rw [← h']
      exact le_trans (le_of_lt (h3 c0 hcur)) hr

lemma authStep_inv {s : AuthState} (line : String) (h : PairsInv s) :
    PairsInv (authStep s line) := by
  obtain ⟨h1, h2, h3⟩ := h
  simp only [authStep]
  repeat' split
  all_goals first
    | exact ⟨h1, h2, h3⟩
    | exact bump_inv ⟨h1, h2, h3⟩
    | exact addChallenge_inv (bump_inv ⟨h1, h2, h3⟩) (Nat.le_of_eq rfl)
    | exact addResponse_inv
        (fun p hp => ⟨(h1 p hp).1, Nat.lt_succ_of_le (h1 p hp).2⟩)
        h2
        (fun c hc => Nat.lt_succ_of_le (h3 c hc))
        (Nat.le_of_eq rfl)

lemma extract_inv (lines : List String) :
    PairsInv (extract_auth_sequences lines) := by
  rw [extract_auth_sequences]
  have hfold : ∀ s, PairsInv s → PairsInv (lines.foldl authStep s) := by
    induction lines with
    | nil => intro s h; exact h
    | cons l rest ih =>
      intro s h
      exact ih _ (authStep_inv l h)
  refine hfold initAuthState ⟨?_, ?_, ?_⟩ <;> simp [initAuthState]

lemma authStep_pairs_none (s : AuthState) (line : String)
    (h : s.current_challenge = none) :
    (authStep s line).pairs = s.pairs := by
  simp only [authStep]
  repeat' split
  all_goals simp [bump, addChallenge, addResponse, h]

/-- The capture used to refute the claimed pairing discipline: a response
with no prior challenge, then a challenge, then two responses. -/
def demo_auth_capture : List String :=
  ["a | modem 1760932567 | 00001010 01000000 11110011 00000000 00000000 00111101 11010000 11100001 09 10 11 12 13 14 15",
   "a | machine 1760932568 | 00100101 01000000 00010010 00010000 00000010 00000000 00000001 08 09 10 11 12 13 14 15 16 17 18 19 20 21 22 23 24 25",
   "a | modem 1760932569 | 00001010 01000000 11110011 00000000 00000000 00111101 11010000 11100001 09 10 11 12 13 14 15",
   "a | modem 1760932570 | 00001010 01000000 11110011 00000000 00000000 00111101 11010000 11100001 09 10 11 12 13 14 15"]

/-- C6 (counterexample): on `demo_auth_capture` the challenge at line 2
is paired with both the line-3 and the line-4 responses — a challenge is
never cleared after pairing, so it does not end up with at most one
response — and the line-1 response, which arrives with no pending
challenge, yields no pair and no anomaly record of any kind (the loop
state has no anomaly output at all). -/
theorem auth_pairing_counterexample :
    (extract_auth_sequences demo_auth_capture).pairs.map
      (fun p => (p.1.line, p.2.line)) = [(2, 3), (2, 4)] ∧
    (extract_auth_sequences demo_auth_capture).responses.map
      (fun r => r.line) = [1, 3, 4] ∧
    (extract_auth_sequences demo_auth_capture).challenges.map
      (fun c => c.line) = [2] := by
  refine ⟨by decide, by decide, by decide⟩

/-- C6 (amended): over any capture, each response is paired with at most
one prior challenge (pair response lines are strictly increasing, so no
response appears twice), every pair's challenge occurs strictly earlier
in the capture than its response (sessions are not modelled by the code),
a challenge may be paired with several responses since it is never
cleared, and a response arriving when no challenge has been seen yields
no pair — and no anomaly record, since the scan produces none. -/
theorem auth_pairing_properties :
    (∀ lines : List String,
      (∀ p ∈ (extract_auth_sequences lines).pairs, p.1.line < p.2.line) ∧
      List.Pairwise (fun p q : AuthRec × AuthRec => p.2.line < q.2.line)
        (extract_auth_sequences lines).pairs) ∧
    (∀ (s : AuthState) (line : String), s.current_challenge = none →
      (authStep s line).pairs = s.pairs) := by
  refine ⟨fun lines => ?_, authStep_pairs_none⟩
  obtain ⟨h1, h2, h3⟩ := extract_inv lines
  exact ⟨fun p hp => (h1 p hp).1, h2⟩

/-- C6 (witness): `auth_pairing_properties` applied to the initial state
(no pending challenge) and a concrete response line: no pair appears. -/
theorem auth_pairing_properties_witness :
    (authStep initAuthState
      "a | modem 1760932567 | 00001010 01000000 11110011 00000000 00000000 00111101 11010000 11100001 09 10 11 12 13 14 15").pairs =
      initAuthState.pairs :=
  auth_pairing_properties.2 initAuthState _ rfl

end Haier

